import Mathlib

/-!
Verification of the compression middleware (`compression.go`).

The middleware wraps the Go standard library codecs `compress/gzip` and
`compress/zlib`.  Those codecs are external to the repository, so they are
modelled here from the specification's codec contract (§6): a compressing
writer accumulates the bytes it is given and, on close, delivers the
codec's standard framed output (header, DEFLATE payload, checksum/length
trailer) to the sink; a decompressing reader validates the header at
construction time and surfaces payload/trailer corruption as a read error.
Byte sequences are `List Nat`.

The middleware layer itself (`Algorithm`, `Middleware`, `WithLevel`, `New`,
`Writer`, `Reader`, the write/read closers) is translated directly from
`compression.go`.
-/

namespace CompressionStdlib

/-- Little-endian 32-bit encoding of a number, as four byte values
(the shape of the gzip CRC32/ISIZE trailer words and the zlib checksum). -/
def le32 (n : Nat) : List Nat :=
  [n % 256, n / 256 % 256, n / 65536 % 256, n / 16777216 % 256]

/-- Modelled from the spec: the integrity checksum the codec formats append
(CRC32 for gzip, Adler-32 for zlib).  Modelled as a sum modulo 2^32. -/
def checksum (data : List Nat) : Nat :=
  data.sum % 4294967296

/-- Whether `p` is a strict period of `data`: `data` is the concatenation of
`data.length / p` copies of its first `p` bytes. -/
def periodB (data : List Nat) (p : Nat) : Bool :=
  data == List.flatten (List.replicate (data.length / p) (data.take p))

/-- Smallest strict period of `data` (searching `1 ≤ p < data.length`),
if any. -/
def findPeriod (data : List Nat) : Option Nat :=
  (List.range data.length).find? (fun p => decide (0 < p) && periodB data p)

/-- Modelled from the spec: the DEFLATE payload produced by both codec
formats.  The model compresses a perfectly periodic input to a
marker/period/count token followed by one copy of the repeating pattern,
and stores any other input literally behind a literal marker. -/
def deflate (data : List Nat) : List Nat :=
  match findPeriod data with
  | some p => 1 :: p :: (data.length / p) :: data.take p
  | none => 0 :: data

/-- Modelled from the spec: the inverse transform of `deflate`; `none`
signals a corrupt payload. -/
def inflate (payload : List Nat) : Option (List Nat) :=
  match payload with
  | 1 :: p :: k :: rest =>
      if rest.length = p then some (List.flatten (List.replicate k rest)) else none
  | 0 :: rest => some rest
  | _ => none

/-- The gzip XFL flag byte derived from the compression level, as the gzip
writer records it (2 for best compression, 4 for fastest). -/
def xflByte (level : Int) : Nat :=
  if level = 9 then 2 else if level = 1 then 4 else 0

/-- Modelled from the spec: the self-describing gzip header (10 bytes:
magic 31/139, method 8 = DEFLATE, flags, mtime, XFL, OS byte). -/
def gzipHeader (level : Int) : List Nat :=
  [31, 139, 8, 0, 0, 0, 0, 0, xflByte level, 255]

/-- Modelled from the spec: the full gzip wire format — header, DEFLATE
payload, CRC32 checksum trailer and length-mod-2^32 trailer. -/
def gzipCompress (level : Int) (data : List Nat) : List Nat :=
  gzipHeader level ++ deflate data ++ le32 (checksum data) ++
    le32 (data.length % 4294967296)

/-- Modelled from the spec: gzip header validation performed when the
decompressing reader is constructed (magic bytes and method must match and
the full 10-byte header must be present). -/
def gzipValidHeader (input : List Nat) : Bool :=
  input.take 3 == [31, 139, 8] && decide (10 ≤ input.length)

/-- Modelled from the spec: `gzip.NewReader` — validates the header at
construction and hands back the remaining stream, or fails. -/
def gzipNewReader (input : List Nat) : Except String (List Nat) :=
  if gzipValidHeader input then .ok (input.drop 10)
  else .error "gzip: invalid header"

/-- Modelled from the spec: reading a gzip stream to exhaustion — inflates
the payload and validates both trailer words; corruption after a valid
header surfaces here as a recoverable error. -/
def gzipReadAll (rest : List Nat) : Except String (List Nat) :=
  if rest.length < 8 then .error "unexpected EOF"
  else
    match inflate (rest.take (rest.length - 8)) with
    | none => .error "gzip: invalid compressed data"
    | some data =>
        if rest.drop (rest.length - 8) =
            le32 (checksum data) ++ le32 (data.length % 4294967296) then
          .ok data
        else .error "gzip: invalid checksum"

/-- The zlib FLG byte derived from the compression level; every value
satisfies the zlib header check (CMF·256 + FLG divisible by 31). -/
def flgByte (level : Int) : Nat :=
  if 7 ≤ level then 218 else if 5 ≤ level then 156 else if 2 ≤ level then 94
  else 1

/-- Modelled from the spec: the leaner zlib header (2 bytes: CMF = 120 for
DEFLATE with a 32K window, and the FLG byte). -/
def zlibHeader (level : Int) : List Nat :=
  [120, flgByte level]

/-- Modelled from the spec: the full zlib wire format — header, DEFLATE
payload and Adler-32 checksum trailer. -/
def zlibCompress (level : Int) (data : List Nat) : List Nat :=
  zlibHeader level ++ deflate data ++ le32 (checksum data)

/-- Modelled from the spec: zlib header validation performed when the
decompressing reader is constructed (method byte and the mod-31 check). -/
def zlibValidHeader : List Nat → Bool
  | b0 :: b1 :: _ => b0 == 120 && (b0 * 256 + b1) % 31 == 0
  | _ => false

/-- Modelled from the spec: `zlib.NewReader` — validates the header at
construction and hands back the remaining stream, or fails. -/
def zlibNewReader (input : List Nat) : Except String (List Nat) :=
  if zlibValidHeader input then .ok (input.drop 2)
  else .error "zlib: invalid header"

/-- Modelled from the spec: reading a zlib stream to exhaustion — inflates
the payload and validates the checksum trailer; corruption after a valid
header surfaces here as a recoverable error. -/
def zlibReadAll (rest : List Nat) : Except String (List Nat) :=
  if rest.length < 4 then .error "unexpected EOF"
  else
    match inflate (rest.take (rest.length - 4)) with
    | none => .error "zlib: invalid compressed data"
    | some data =>
        if rest.drop (rest.length - 4) = le32 (checksum data) then .ok data
        else .error "zlib: invalid checksum"

/-- `type Algorithm int` — the compression algorithm selector. -/
abbrev Algorithm := Int

/-- `Gzip Algorithm = iota` (= 0). -/
def Gzip : Algorithm := 0

/-- `Zlib` (= 1). -/
def Zlib : Algorithm := 1

/-- `type Middleware struct { algorithm Algorithm; level int }`. -/
structure Middleware where
  algorithm : Algorithm
  level : Int
deriving DecidableEq, Repr

/-- `type Option func(*Middleware)` — configuration options are functions
over the middleware under construction (named `MOption` because `Option`
is taken in Lean). -/
def MOption := Middleware → Middleware

/-- `WithLevel` — sets the compression level when it lies in [1,9] and is
otherwise a no-op. -/
def WithLevel (level : Int) : MOption := fun m =>
  if 1 ≤ level ∧ level ≤ 9 then { m with level := level } else m

/-- `New` — builds the middleware with the default level 6 and applies the
options in order.  Total: construction cannot fail. -/
def New (algorithm : Algorithm) (opts : List MOption) : Middleware :=
  opts.foldl (fun m opt => opt m) { algorithm := algorithm, level := 6 }

/-- The fatal-fault (panic) values the middleware can raise, tagged by
which `panic` call site in `compression.go` produced them. -/
inductive PanicMsg where
  | createGzipWriter (e : String)
  | createZlibWriter (e : String)
  | createGzipReader (e : String)
  | createZlibReader (e : String)
  | unsupportedAlgorithm
deriving DecidableEq, Repr

/-- The panic string each fault carries, as built in `compression.go`. -/
def PanicMsg.message : PanicMsg → String
  | .createGzipWriter e => "failed to create gzip writer: " ++ e
  | .createZlibWriter e => "failed to create zlib writer: " ++ e
  | .createGzipReader e => "failed to create gzip reader: " ++ e
  | .createZlibReader e => "failed to create zlib reader: " ++ e
  | .unsupportedAlgorithm => "unsupported compression algorithm"

/-- Modelled from the spec: a `gzip.Writer` — holds its level and the bytes
written so far; the framed output reaches the sink at close. -/
structure GzipWriter where
  level : Int
  buf : List Nat
deriving DecidableEq, Repr

/-- Modelled from the spec: `gzip.Writer.Write` — accepts the slice and
reports the count written. -/
def GzipWriter.write (g : GzipWriter) (p : List Nat) : GzipWriter × Nat :=
  ({ g with buf := g.buf ++ p }, p.length)

/-- Modelled from the spec: closing a `gzip.Writer` finalizes the framing;
the sink ends up holding exactly the codec's standard format output. -/
def GzipWriter.close (g : GzipWriter) : List Nat :=
  gzipCompress g.level g.buf

/-- Modelled from the spec: `gzip.NewWriterLevel` — succeeds exactly for
the levels the stdlib codec accepts (HuffmanOnly = -2 up to 9). -/
def gzipNewWriterLevel (level : Int) : Except String GzipWriter :=
  if -2 ≤ level ∧ level ≤ 9 then .ok ⟨level, []⟩
  else .error "gzip: invalid compression level"

/-- Modelled from the spec: a `zlib.Writer`, as for gzip. -/
structure ZlibWriter where
  level : Int
  buf : List Nat
deriving DecidableEq, Repr

/-- Modelled from the spec: `zlib.Writer.Write`. -/
def ZlibWriter.write (z : ZlibWriter) (p : List Nat) : ZlibWriter × Nat :=
  ({ z with buf := z.buf ++ p }, p.length)

/-- Modelled from the spec: closing a `zlib.Writer` finalizes the framing. -/
def ZlibWriter.close (z : ZlibWriter) : List Nat :=
  zlibCompress z.level z.buf

/-- Modelled from the spec: `zlib.NewWriterLevel` — same accepted level
range as gzip. -/
def zlibNewWriterLevel (level : Int) : Except String ZlibWriter :=
  if -2 ≤ level ∧ level ≤ 9 then .ok ⟨level, []⟩
  else .error "zlib: invalid compression level"

/-- `type gzipWriteCloser struct { *gzip.Writer }`. -/
structure gzipWriteCloser where
  Writer : GzipWriter
deriving DecidableEq, Repr

/-- `gzipWriteCloser.Write` — delegates to the wrapped writer unchanged. -/
def gzipWriteCloser.Write (w : gzipWriteCloser) (p : List Nat) :
    gzipWriteCloser × Nat :=
  (⟨(w.Writer.write p).1⟩, (w.Writer.write p).2)

/-- `gzipWriteCloser.Close` as a function of the wrapped writer's close
result: `nil` stays `nil`, an error is wrapped with
`"failed to close gzip writer"` (the `errors.Wrap` message format). -/
def gzipWriteCloser.CloseErr (underlying : Option String) : Option String :=
  match underlying with
  | none => none
  | some e => some ("failed to close gzip writer: " ++ e)

/-- `type zlibWriteCloser struct { *zlib.Writer }`. -/
structure zlibWriteCloser where
  Writer : ZlibWriter
deriving DecidableEq, Repr

/-- `zlibWriteCloser.Write` — delegates to the wrapped writer unchanged. -/
def zlibWriteCloser.Write (w : zlibWriteCloser) (p : List Nat) :
    zlibWriteCloser × Nat :=
  (⟨(w.Writer.write p).1⟩, (w.Writer.write p).2)

/-- `zlibWriteCloser.Close` as a function of the wrapped writer's close
result, wrapping errors with `"failed to close zlib writer"`. -/
def zlibWriteCloser.CloseErr (underlying : Option String) : Option String :=
  match underlying with
  | none => none
  | some e => some ("failed to close zlib writer: " ++ e)

/-- The write-side stream adapter `Middleware.Writer` returns (the dynamic
`io.Writer` value: one of the two write-closer wrappers). -/
inductive WAdapter where
  | gz : gzipWriteCloser → WAdapter
  | zl : zlibWriteCloser → WAdapter
deriving DecidableEq, Repr

/-- A write call on the adapter, dispatching to the wrapper's `Write`. -/
def WAdapter.Write : WAdapter → List Nat → WAdapter × Nat
  | .gz w, p => ((WAdapter.gz (w.Write p).1), (w.Write p).2)
  | .zl w, p => ((WAdapter.zl (w.Write p).1), (w.Write p).2)

/-- Closing the adapter: the bytes the sink holds once the codec writer has
finalized its framing. -/
def WAdapter.close : WAdapter → List Nat
  | .gz w => w.Writer.close
  | .zl w => w.Writer.close

/-- `Middleware.Writer` — dispatches on the algorithm, builds the codec
writer at the configured level, and wraps it; a codec factory failure or an
unrecognized algorithm is a fatal fault (panic), modelled as `.error`. -/
def Middleware.Writer (m : Middleware) : Except PanicMsg WAdapter :=
  if m.algorithm = Gzip then
    match gzipNewWriterLevel m.level with
    | .ok g => .ok (.gz ⟨g⟩)
    | .error e => .error (.createGzipWriter e)
  else if m.algorithm = Zlib then
    match zlibNewWriterLevel m.level with
    | .ok z => .ok (.zl ⟨z⟩)
    | .error e => .error (.createZlibWriter e)
  else .error .unsupportedAlgorithm

/-- The read-side stream adapter `Middleware.Reader` returns, holding the
stream remaining past the validated header. -/
inductive RAdapter where
  | gz : List Nat → RAdapter
  | zl : List Nat → RAdapter
deriving DecidableEq, Repr

/-- Reading the adapter to exhaustion, dispatching to the codec reader. -/
def RAdapter.readAll : RAdapter → Except String (List Nat)
  | .gz rest => gzipReadAll rest
  | .zl rest => zlibReadAll rest

/-- `Middleware.Reader` — dispatches on the algorithm and constructs the
codec reader over the source; a header-validation failure or an
unrecognized algorithm is a fatal fault (panic), modelled as `.error`. -/
def Middleware.Reader (m : Middleware) (input : List Nat) :
    Except PanicMsg RAdapter :=
  if m.algorithm = Gzip then
    match gzipNewReader input with
    | .ok rest => .ok (.gz rest)
    | .error e => .error (.createGzipReader e)
  else if m.algorithm = Zlib then
    match zlibNewReader input with
    | .ok rest => .ok (.zl rest)
    | .error e => .error (.createZlibReader e)
  else .error .unsupportedAlgorithm

/-- Writing a list of chunks through the adapter, one `Write` call each. -/
def writeAll (w : WAdapter) (chunks : List (List Nat)) : WAdapter :=
  chunks.foldl (fun w c => (w.Write c).1) w

/-- The whole write-side pipeline: construct the adapter, write the chunks
in order, close; the result is what the sink holds. -/
def middlewareCompress (m : Middleware) (chunks : List (List Nat)) :
    Except PanicMsg (List Nat) :=
  (m.Writer).map (fun w => (writeAll w chunks).close)

/-- The whole read-side pipeline: construct the adapter over the compressed
bytes and read everything; panics and read errors both reported. -/
def middlewareDecompress (m : Middleware) (c : List Nat) :
    Except String (List Nat) :=
  match m.Reader c with
  | .error p => .error p.message
  | .ok r => r.readAll

/-- Follows the spec's words (§6): the on-the-wire bytes are exactly what
the chosen external codec's standard format produces, with zero bytes of
middleware framing. -/
def specWireBytes (A L : Int) (S : List Nat) : List Nat :=
  if A = Gzip then gzipCompress L S else zlibCompress L S

/-- The 42-byte concrete scenario input: "Hello, world! " three times. -/
def helloS : List Nat :=
  [72, 101, 108, 108, 111, 44, 32, 119, 111, 114, 108, 100, 33, 32] ++
  [72, 101, 108, 108, 111, 44, 32, 119, 111, 114, 108, 100, 33, 32] ++
  [72, 101, 108, 108, 111, 44, 32, 119, 111, 114, 108, 100, 33, 32]

theorem findPeriod_spec {data : List Nat} {p : Nat} (h : findPeriod data = some p) :
    p < data.length ∧ 0 < p ∧
      data = List.flatten (List.replicate (data.length / p) (data.take p)) := by
  unfold findPeriod at h
  have hmem := List.mem_of_find?_eq_some h
  have hpred := List.find?_some h
  rw [List.mem_range] at hmem
  rw [Bool.and_eq_true, decide_eq_true_eq] at hpred
  refine ⟨hmem, hpred.1, ?_⟩
  have := hpred.2
  unfold periodB at this
  exact eq_of_beq this

/-- The payload model round-trips: inflating a deflated stream recovers the
original bytes. -/
theorem inflate_deflate (data : List Nat) : inflate (deflate data) = some data := by
  unfold deflate
  cases h : findPeriod data with
  | none => rfl
  | some p =>
      obtain ⟨hlt, hpos, heq⟩ := findPeriod_spec h
      have hlen : (data.take p).length = p :=
        List.length_take_of_le (Nat.le_of_lt hlt)
      simp only [inflate, hlen, if_pos rfl]
      exact congrArg some heq.symm

theorem le32_length (n : Nat) : (le32 n).length = 4 := rfl

theorem gzipNewReader_header (L : Int) (rest : List Nat) :
    gzipNewReader (gzipHeader L ++ rest) = .ok rest := by
  have hval : gzipValidHeader (gzipHeader L ++ rest) = true := by
    simp [gzipValidHeader, gzipHeader, List.length_append]
  unfold gzipNewReader
  rw [if_pos hval]
  show Except.ok ((gzipHeader L ++ rest).drop 10) = _
  simp [gzipHeader]

theorem gzipReadAll_frame (S tr : List Nat) (htr : tr.length = 8) :
    gzipReadAll (deflate S ++ tr) =
      if tr = le32 (checksum S) ++ le32 (S.length % 4294967296) then .ok S
      else .error "gzip: invalid checksum" := by
  have hlen : (deflate S ++ tr).length = (deflate S).length + 8 := by
    simp [List.length_append, htr]
  have hidx : (deflate S ++ tr).length - 8 = (deflate S).length := by omega
  have hnot : ¬ (deflate S ++ tr).length < 8 := by omega
  simp only [gzipReadAll, if_neg hnot, hidx, List.take_left' rfl,
    List.drop_left' rfl, inflate_deflate]

theorem gzip_trailer_length (S : List Nat) :
    (le32 (checksum S) ++ le32 (S.length % 4294967296)).length = 8 := rfl

theorem gzip_roundtrip (L : Int) (S : List Nat) :
    gzipNewReader (gzipCompress L S) = .ok (deflate S ++
        (le32 (checksum S) ++ le32 (S.length % 4294967296))) ∧
      gzipReadAll (deflate S ++
        (le32 (checksum S) ++ le32 (S.length % 4294967296))) = .ok S := by
  constructor
  · have := gzipNewReader_header L
      (deflate S ++ (le32 (checksum S) ++ le32 (S.length % 4294967296)))
    simpa [gzipCompress, List.append_assoc] using this
  · rw [gzipReadAll_frame S _ (gzip_trailer_length S), if_pos rfl]

theorem flgByte_mod (L : Int) : (120 * 256 + flgByte L) % 31 = 0 := by
  unfold flgByte
  split
  · rfl
  · split
    · rfl
    · split <;> rfl

theorem zlibNewReader_header (L : Int) (rest : List Nat) :
    zlibNewReader (zlibHeader L ++ rest) = .ok rest := by
  have hval : zlibValidHeader (zlibHeader L ++ rest) = true := by
    show (120 == 120 && (120 * 256 + flgByte L) % 31 == 0) = true
    simp [flgByte_mod L]
  unfold zlibNewReader
  rw [if_pos hval]
  show Except.ok ((zlibHeader L ++ rest).drop 2) = _
  simp [zlibHeader]

theorem zlibReadAll_frame (S tr : List Nat) (htr : tr.length = 4) :
    zlibReadAll (deflate S ++ tr) =
      if tr = le32 (checksum S) then .ok S
      else .error "zlib: invalid checksum" := by
  have hlen : (deflate S ++ tr).length = (deflate S).length + 4 := by
    simp [List.length_append, htr]
  have hidx : (deflate S ++ tr).length - 4 = (deflate S).length := by omega
  have hnot : ¬ (deflate S ++ tr).length < 4 := by omega
  simp only [zlibReadAll, if_neg hnot, hidx, List.take_left' rfl,
    List.drop_left' rfl, inflate_deflate]

theorem zlib_roundtrip (L : Int) (S : List Nat) :
    zlibNewReader (zlibCompress L S) = .ok (deflate S ++ le32 (checksum S)) ∧
      zlibReadAll (deflate S ++ le32 (checksum S)) = .ok S := by
  constructor
  · have := zlibNewReader_header L (deflate S ++ le32 (checksum S))
    simpa [zlibCompress, List.append_assoc] using this
  · rw [zlibReadAll_frame S _ (le32_length _), if_pos rfl]

theorem writeAll_gz (L : Int) (b : List Nat) (chunks : List (List Nat)) :
    writeAll (.gz ⟨⟨L, b⟩⟩) chunks = .gz ⟨⟨L, b ++ chunks.flatten⟩⟩ := by
  induction chunks generalizing b with
  | nil => simp [writeAll]
  | cons c cs ih =>
      show writeAll (.gz ⟨⟨L, b ++ c⟩⟩) cs = _
      rw [ih (b ++ c)]
      simp [List.append_assoc]

theorem writeAll_zl (L : Int) (b : List Nat) (chunks : List (List Nat)) :
    writeAll (.zl ⟨⟨L, b⟩⟩) chunks = .zl ⟨⟨L, b ++ chunks.flatten⟩⟩ := by
  induction chunks generalizing b with
  | nil => simp [writeAll]
  | cons c cs ih =>
      show writeAll (.zl ⟨⟨L, b ++ c⟩⟩) cs = _
      rw [ih (b ++ c)]
      simp [List.append_assoc]

theorem middlewareCompress_gzip (m : Middleware) (chunks : List (List Nat))
    (hA : m.algorithm = Gzip) (h2 : -2 ≤ m.level) (h9 : m.level ≤ 9) :
    middlewareCompress m chunks = .ok (gzipCompress m.level chunks.flatten) := by
  unfold middlewareCompress Middleware.Writer
  rw [if_pos hA]
  unfold gzipNewWriterLevel
  rw [if_pos ⟨h2, h9⟩]
  show Except.ok (writeAll (.gz ⟨⟨m.level, []⟩⟩) chunks).close = _
  rw [writeAll_gz]
  simp [WAdapter.close, GzipWriter.close]

theorem middlewareCompress_zlib (m : Middleware) (chunks : List (List Nat))
    (hA : m.algorithm = Zlib) (hA' : m.algorithm ≠ Gzip)
    (h2 : -2 ≤ m.level) (h9 : m.level ≤ 9) :
    middlewareCompress m chunks = .ok (zlibCompress m.level chunks.flatten) := by
  unfold middlewareCompress Middleware.Writer
  rw [if_neg hA', if_pos hA]
  unfold zlibNewWriterLevel
  rw [if_pos ⟨h2, h9⟩]
  show Except.ok (writeAll (.zl ⟨⟨m.level, []⟩⟩) chunks).close = _
  rw [writeAll_zl]
  simp [WAdapter.close, ZlibWriter.close]

theorem middlewareDecompress_gzip (m : Middleware) (L : Int) (S : List Nat)
    (hA : m.algorithm = Gzip) :
    middlewareDecompress m (gzipCompress L S) = .ok S := by
  unfold middlewareDecompress Middleware.Reader
  rw [if_pos hA, (gzip_roundtrip L S).1]
  show RAdapter.readAll (.gz _) = _
  unfold RAdapter.readAll
  exact (gzip_roundtrip L S).2

theorem middlewareDecompress_zlib (m : Middleware) (L : Int) (S : List Nat)
    (hA : m.algorithm = Zlib) (hA' : m.algorithm ≠ Gzip) :
    middlewareDecompress m (zlibCompress L S) = .ok S := by
  unfold middlewareDecompress Middleware.Reader
  rw [if_neg hA', if_pos hA, (zlib_roundtrip L S).1]
  show RAdapter.readAll (.zl _) = _
  unfold RAdapter.readAll
  exact (zlib_roundtrip L S).2

theorem foldl_withLevel_inv (ls : List Int) (m : Middleware) :
    (ls.foldl (fun m L => WithLevel L m) m).algorithm = m.algorithm ∧
      ((1 ≤ m.level ∧ m.level ≤ 9) →
        1 ≤ (ls.foldl (fun m L => WithLevel L m) m).level ∧
          (ls.foldl (fun m L => WithLevel L m) m).level ≤ 9) := by
  induction ls generalizing m with
  | nil => exact ⟨rfl, fun h => h⟩
  | cons L ls ih =>
      show (ls.foldl _ (WithLevel L m)).algorithm = m.algorithm ∧ _
      have halg : (WithLevel L m).algorithm = m.algorithm := by
        unfold WithLevel; split <;> rfl
      refine ⟨(ih (WithLevel L m)).1.trans halg, fun h => ?_⟩
      refine (ih (WithLevel L m)).2 ?_
      unfold WithLevel
      split
      · next hin => exact hin
      · exact h

theorem New_map_withLevel (A : Int) (ls : List Int) :
    (New A (ls.map WithLevel)).algorithm = A ∧
      1 ≤ (New A (ls.map WithLevel)).level ∧
        (New A (ls.map WithLevel)).level ≤ 9 := by
  have hrw : New A (ls.map WithLevel) =
      ls.foldl (fun m L => WithLevel L m) ⟨A, 6⟩ := by
    unfold New
    exact List.foldl_map WithLevel (fun m opt => opt m) ls ⟨A, 6⟩
  rw [hrw]
  have h := foldl_withLevel_inv ls ⟨A, 6⟩
  exact ⟨h.1, h.2 ⟨by norm_num, by norm_num⟩⟩

theorem New_withLevel_eq (A L : Int) (h1 : 1 ≤ L) (h9 : L ≤ 9) :
    New A [WithLevel L] = ⟨A, L⟩ := by
  show WithLevel L ⟨A, 6⟩ = _
  unfold WithLevel
  rw [if_pos ⟨h1, h9⟩]

/-- C1: for every supported algorithm (Gzip or Zlib), every level in [1,9]
and every byte sequence S (including empty), writing S through the adapter
returned by `Writer`, closing, then reading through the adapter returned by
`Reader` over the compressed bytes yields exactly S with no error. -/
theorem C1_roundtrip (A L : Int) (S : List Nat)
    (hA : A = Gzip ∨ A = Zlib) (h1 : 1 ≤ L) (h9 : L ≤ 9) :
    middlewareCompress (New A [WithLevel L]) [S] = .ok (specWireBytes A L S) ∧
      middlewareDecompress (New A [WithLevel L]) (specWireBytes A L S) =
        .ok S := by
  rw [New_withLevel_eq A L h1 h9]
  rcases hA with hA | hA
  · constructor
    · rw [middlewareCompress_gzip ⟨A, L⟩ [S] hA (show (-2:Int) ≤ L by omega) h9]
      simp [specWireBytes, hA]
    · have hrw : specWireBytes A L S = gzipCompress L S := by
        simp [specWireBytes, hA]
      rw [hrw]
      exact middlewareDecompress_gzip ⟨A, L⟩ L S hA
  · have hA' : (⟨A, L⟩ : Middleware).algorithm ≠ Gzip := by
      show A ≠ Gzip; rw [hA]; decide
    have hrw : specWireBytes A L S = zlibCompress L S := by
      unfold specWireBytes; rw [if_neg hA']
    constructor
    · rw [middlewareCompress_zlib ⟨A, L⟩ [S] hA hA' (show (-2:Int) ≤ L by omega) h9, hrw]
      simp
    · rw [hrw]
      exact middlewareDecompress_zlib ⟨A, L⟩ L S hA hA'

theorem C1_roundtrip_witness :
    middlewareCompress (New Zlib [WithLevel 9]) [[10, 20, 30]] =
        .ok (specWireBytes Zlib 9 [10, 20, 30]) ∧
      middlewareDecompress (New Zlib [WithLevel 9])
        (specWireBytes Zlib 9 [10, 20, 30]) = .ok [10, 20, 30] :=
  C1_roundtrip Zlib 9 [10, 20, 30] (Or.inr rfl) (by decide) (by decide)

/-- C2: the constructed middleware's level is always in [1,9]: no option
gives the default 6, `WithLevel` with an in-range value sets it, an
out-of-range `WithLevel` is a silent no-op, and construction (a total
function) never produces an error for any option value. -/
theorem C2_level_invariant (A L Lbad : Int) (m : Middleware) (ls : List Int)
    (h1 : 1 ≤ L) (h9 : L ≤ 9) (hbad : ¬(1 ≤ Lbad ∧ Lbad ≤ 9)) :
    (New A []).level = 6 ∧
    (New A [WithLevel L]).level = L ∧
    WithLevel Lbad m = m ∧
    1 ≤ (New A (ls.map WithLevel)).level ∧
      (New A (ls.map WithLevel)).level ≤ 9 := by
  refine ⟨rfl, ?_, ?_, (New_map_withLevel A ls).2⟩
  · rw [New_withLevel_eq A L h1 h9]
  · unfold WithLevel; rw [if_neg hbad]

theorem C2_level_invariant_witness :
    (New 0 []).level = 6 ∧
    (New 0 [WithLevel 3]).level = 3 ∧
    WithLevel 15 ⟨0, 6⟩ = ⟨0, 6⟩ ∧
    1 ≤ (New 0 ([0, 15, -1].map WithLevel)).level ∧
      (New 0 ([0, 15, -1].map WithLevel)).level ≤ 9 :=
  C2_level_invariant 0 3 15 ⟨0, 6⟩ [0, 15, -1] (by decide) (by decide)
    (by decide)

/-- C3: algorithm dispatch in `Writer` and `Reader` is exhaustive over
exactly Gzip and Zlib; every other value hits the fatal-fault (panic) path,
never a silent default, while the two supported values never hit it. -/
theorem C3_dispatch (A B L : Int) (input : List Nat)
    (h0 : A ≠ Gzip) (h1 : A ≠ Zlib) (hB : B = Gzip ∨ B = Zlib) :
    (Middleware.mk A L).Writer = .error .unsupportedAlgorithm ∧
    (Middleware.mk A L).Reader input = .error .unsupportedAlgorithm ∧
    (Middleware.mk B L).Writer ≠ .error .unsupportedAlgorithm ∧
    (Middleware.mk B L).Reader input ≠ .error .unsupportedAlgorithm := by
  refine ⟨?_, ?_, ?_, ?_⟩
  · unfold Middleware.Writer
    rw [if_neg h0, if_neg h1]
  · unfold Middleware.Reader
    rw [if_neg h0, if_neg h1]
  · unfold Middleware.Writer
    rcases hB with hB | hB
    · rw [if_pos hB]
      cases hg : gzipNewWriterLevel L <;> simp
    · have hB' : B ≠ Gzip := by rw [hB]; decide
      rw [if_neg hB', if_pos hB]
      cases hz : zlibNewWriterLevel L <;> simp
  · unfold Middleware.Reader
    rcases hB with hB | hB
    · rw [if_pos hB]
      cases hg : gzipNewReader input <;> simp
    · have hB' : B ≠ Gzip := by rw [hB]; decide
      rw [if_neg hB', if_pos hB]
      cases hz : zlibNewReader input <;> simp

theorem C3_dispatch_witness :
    (Middleware.mk 999 6).Writer = .error .unsupportedAlgorithm ∧
    (Middleware.mk 999 6).Reader [] = .error .unsupportedAlgorithm ∧
    (Middleware.mk 0 6).Writer ≠ .error .unsupportedAlgorithm ∧
    (Middleware.mk 0 6).Reader [] ≠ .error .unsupportedAlgorithm :=
  C3_dispatch 999 0 6 [] (by decide) (by decide) (Or.inl rfl)

/-- C4: writing S as an arbitrary list of chunks (one write call per chunk)
through a single adapter and closing produces byte-for-byte the same
compressed output as writing S in one call through an identically
configured adapter, and both decompress back to S. -/
theorem C4_streaming (A L : Int) (S : List Nat) (chunks : List (List Nat))
    (c : List Nat) (hA : A = Gzip ∨ A = Zlib) (h1 : 1 ≤ L) (h9 : L ≤ 9)
    (hje : chunks.flatten = S)
    (hc : middlewareCompress (New A [WithLevel L]) chunks = .ok c) :
    middlewareCompress (New A [WithLevel L]) chunks =
      middlewareCompress (New A [WithLevel L]) [S] ∧
    middlewareDecompress (New A [WithLevel L]) c = .ok S := by
  rw [New_withLevel_eq A L h1 h9] at hc ⊢
  rcases hA with hA | hA
  · rw [middlewareCompress_gzip ⟨A, L⟩ chunks hA (show (-2:Int) ≤ L by omega) h9] at hc ⊢
    rw [middlewareCompress_gzip ⟨A, L⟩ [S] hA (show (-2:Int) ≤ L by omega) h9]
    have hcc : c = gzipCompress L chunks.flatten := by
      cases hc; rfl
    refine ⟨by simp [hje], ?_⟩
    rw [hcc, hje]
    exact middlewareDecompress_gzip ⟨A, L⟩ L S hA
  · have hA' : (⟨A, L⟩ : Middleware).algorithm ≠ Gzip := by
      show A ≠ Gzip; rw [hA]; decide
    rw [middlewareCompress_zlib ⟨A, L⟩ chunks hA hA' (show (-2:Int) ≤ L by omega) h9] at hc ⊢
    rw [middlewareCompress_zlib ⟨A, L⟩ [S] hA hA' (show (-2:Int) ≤ L by omega) h9]
    have hcc : c = zlibCompress L chunks.flatten := by
      cases hc; rfl
    refine ⟨by simp [hje], ?_⟩
    rw [hcc, hje]
    exact middlewareDecompress_zlib ⟨A, L⟩ L S hA hA'

theorem C4_streaming_witness :
    middlewareCompress (New Gzip [WithLevel 6]) [[1], [2, 3], []] =
      middlewareCompress (New Gzip [WithLevel 6]) [[1, 2, 3]] ∧
    middlewareDecompress (New Gzip [WithLevel 6]) (gzipCompress 6 [1, 2, 3]) =
      .ok [1, 2, 3] :=
  C4_streaming 0 6 [1, 2, 3] [[1], [2, 3], []] (gzipCompress 6 [1, 2, 3])
    (Or.inl rfl) (by decide) (by decide) rfl rfl

/-- C5: the write-side adapter implements write and close; its `Close`
returns nil exactly when the wrapped codec writer's close succeeds and
otherwise wraps the underlying error with a message naming which
algorithm's closer failed, and closing finalizes the codec framing. -/
theorem C5_close (e e' : Option String) (s : String) (hs : e = some s)
    (w : gzipWriteCloser) (z : zlibWriteCloser) :
    (gzipWriteCloser.CloseErr e' = none ↔ e' = none) ∧
    (zlibWriteCloser.CloseErr e' = none ↔ e' = none) ∧
    gzipWriteCloser.CloseErr e =
      some ("failed to close gzip writer: " ++ s) ∧
    zlibWriteCloser.CloseErr e =
      some ("failed to close zlib writer: " ++ s) ∧
    WAdapter.close (.gz w) = gzipCompress w.Writer.level w.Writer.buf ∧
    WAdapter.close (.zl z) = zlibCompress z.Writer.level z.Writer.buf := by
  subst hs
  refine ⟨?_, ?_, rfl, rfl, rfl, rfl⟩ <;>
    cases e' <;> simp [gzipWriteCloser.CloseErr, zlibWriteCloser.CloseErr]

theorem C5_close_witness :
    (gzipWriteCloser.CloseErr (some "io fault") = none ↔
      (some "io fault" : Option String) = none) ∧
    (zlibWriteCloser.CloseErr (some "io fault") = none ↔
      (some "io fault" : Option String) = none) ∧
    gzipWriteCloser.CloseErr (some "disk full") =
      some ("failed to close gzip writer: " ++ "disk full") ∧
    zlibWriteCloser.CloseErr (some "disk full") =
      some ("failed to close zlib writer: " ++ "disk full") ∧
    WAdapter.close (.gz ⟨⟨6, [4, 5]⟩⟩) = gzipCompress 6 [4, 5] ∧
    WAdapter.close (.zl ⟨⟨6, [4, 5]⟩⟩) = zlibCompress 6 [4, 5] :=
  C5_close (some "disk full") (some "io fault") "disk full" rfl
    ⟨⟨6, [4, 5]⟩⟩ ⟨⟨6, [4, 5]⟩⟩

/-- C6: for every supported algorithm, an invalid compressed-format header
makes `Reader` fail fatally (panic) at adapter construction, while
corruption after a valid header (here: a wrong trailer) leaves construction
successful and surfaces as an ordinary error returned from reading — shown
for both the gzip and the zlib stream adapters. -/
theorem C6_reader_faults (badg badz : List Nat) (L LV : Int)
    (S tr Sz trz : List Nat)
    (hbg : gzipValidHeader badg = false) (hbz : zlibValidHeader badz = false)
    (htr : tr.length = 8)
    (hne : tr ≠ le32 (checksum S) ++ le32 (S.length % 4294967296))
    (htrz : trz.length = 4) (hnez : trz ≠ le32 (checksum Sz)) :
    (Middleware.mk Gzip LV).Reader badg =
      .error (.createGzipReader "gzip: invalid header") ∧
    (Middleware.mk Zlib LV).Reader badz =
      .error (.createZlibReader "zlib: invalid header") ∧
    (Middleware.mk Gzip LV).Reader (gzipHeader L ++ (deflate S ++ tr)) =
      .ok (.gz (deflate S ++ tr)) ∧
    RAdapter.readAll (.gz (deflate S ++ tr)) =
      .error "gzip: invalid checksum" ∧
    (Middleware.mk Zlib LV).Reader (zlibHeader L ++ (deflate Sz ++ trz)) =
      .ok (.zl (deflate Sz ++ trz)) ∧
    RAdapter.readAll (.zl (deflate Sz ++ trz)) =
      .error "zlib: invalid checksum" := by
  refine ⟨?_, ?_, ?_, ?_, ?_, ?_⟩
  · unfold Middleware.Reader
    rw [if_pos rfl]
    simp [gzipNewReader, hbg]
  · unfold Middleware.Reader
    rw [if_neg (show Zlib ≠ Gzip by decide), if_pos rfl]
    simp [zlibNewReader, hbz]
  · unfold Middleware.Reader
    rw [if_pos rfl, gzipNewReader_header L (deflate S ++ tr)]
  · show gzipReadAll (deflate S ++ tr) = _
    rw [gzipReadAll_frame S tr htr, if_neg hne]
  · unfold Middleware.Reader
    rw [if_neg (show Zlib ≠ Gzip by decide), if_pos rfl,
      zlibNewReader_header L (deflate Sz ++ trz)]
  · show zlibReadAll (deflate Sz ++ trz) = _
    rw [zlibReadAll_frame Sz trz htrz, if_neg hnez]

theorem C6_reader_faults_witness :
    (Middleware.mk Gzip 6).Reader [0] =
      .error (.createGzipReader "gzip: invalid header") ∧
    (Middleware.mk Zlib 6).Reader [0, 0] =
      .error (.createZlibReader "zlib: invalid header") ∧
    (Middleware.mk Gzip 6).Reader
        (gzipHeader 6 ++ (deflate [1, 2, 3] ++ [0, 0, 0, 0, 0, 0, 0, 0])) =
      .ok (.gz (deflate [1, 2, 3] ++ [0, 0, 0, 0, 0, 0, 0, 0])) ∧
    RAdapter.readAll (.gz (deflate [1, 2, 3] ++ [0, 0, 0, 0, 0, 0, 0, 0])) =
      .error "gzip: invalid checksum" ∧
    (Middleware.mk Zlib 6).Reader
        (zlibHeader 6 ++ (deflate [1, 2, 3] ++ [0, 0, 0, 0])) =
      .ok (.zl (deflate [1, 2, 3] ++ [0, 0, 0, 0])) ∧
    RAdapter.readAll (.zl (deflate [1, 2, 3] ++ [0, 0, 0, 0])) =
      .error "zlib: invalid checksum" :=
  C6_reader_faults [0] [0, 0] 6 6 [1, 2, 3] [0, 0, 0, 0, 0, 0, 0, 0]
    [1, 2, 3] [0, 0, 0, 0] (by decide) (by decide) (by decide) (by decide)
    (by decide) (by decide)

/-- C7: the bytes that reach the sink are exactly the chosen codec's
standard format output: the write closers delegate every slice unchanged to
the codec writer, and the middleware adds zero bytes of framing before,
between, or after the codec's output. -/
theorem C7_wire (A L : Int) (chunks : List (List Nat)) (p : List Nat)
    (w : gzipWriteCloser) (z : zlibWriteCloser)
    (hA : A = Gzip ∨ A = Zlib) (h2 : -2 ≤ L) (h9 : L ≤ 9) :
    middlewareCompress ⟨A, L⟩ chunks = .ok (specWireBytes A L chunks.flatten) ∧
    (w.Write p).1.Writer = (w.Writer.write p).1 ∧
    (w.Write p).2 = (w.Writer.write p).2 ∧
    (z.Write p).1.Writer = (z.Writer.write p).1 ∧
    (z.Write p).2 = (z.Writer.write p).2 := by
  refine ⟨?_, rfl, rfl, rfl, rfl⟩
  rcases hA with hA | hA
  · rw [middlewareCompress_gzip ⟨A, L⟩ chunks hA h2 h9]
    simp [specWireBytes, hA]
  · have hA' : (⟨A, L⟩ : Middleware).algorithm ≠ Gzip := by
      show A ≠ Gzip; rw [hA]; decide
    rw [middlewareCompress_zlib ⟨A, L⟩ chunks hA hA' h2 h9]
    unfold specWireBytes
    rw [if_neg hA']

theorem C7_wire_witness :
    middlewareCompress ⟨1, 6⟩ [[7], [8]] =
      .ok (specWireBytes 1 6 ([[7], [8]] : List (List Nat)).flatten) ∧
    ((⟨⟨6, []⟩⟩ : gzipWriteCloser).Write [9]).1.Writer =
      ((⟨6, []⟩ : GzipWriter).write [9]).1 ∧
    ((⟨⟨6, []⟩⟩ : gzipWriteCloser).Write [9]).2 =
      ((⟨6, []⟩ : GzipWriter).write [9]).2 ∧
    ((⟨⟨6, []⟩⟩ : zlibWriteCloser).Write [9]).1.Writer =
      ((⟨6, []⟩ : ZlibWriter).write [9]).1 ∧
    ((⟨⟨6, []⟩⟩ : zlibWriteCloser).Write [9]).2 =
      ((⟨6, []⟩ : ZlibWriter).write [9]).2 :=
  C7_wire 1 6 [[7], [8]] [9] ⟨⟨6, []⟩⟩ ⟨⟨6, []⟩⟩ (Or.inr rfl) (by decide)
    (by decide)

/-- C8: the concrete scenario — gzip at level 9 over an in-memory sink,
writing "Hello, world! " three times (42 bytes) and closing yields a
compressed stream of 35 bytes (< 42), and reading it back through `Reader`
yields exactly the original 42 bytes. -/
theorem C8_concrete :
    helloS.length = 42 ∧
    middlewareCompress (New Gzip [WithLevel 9]) [helloS] =
      .ok [31, 139, 8, 0, 0, 0, 0, 0, 2, 255, 1, 14, 3, 72, 101, 108, 108,
        111, 44, 32, 119, 111, 114, 108, 100, 33, 32, 251, 13, 0, 0, 42, 0,
        0, 0] ∧
    ([31, 139, 8, 0, 0, 0, 0, 0, 2, 255, 1, 14, 3, 72, 101, 108, 108, 111,
        44, 32, 119, 111, 114, 108, 100, 33, 32, 251, 13, 0, 0, 42, 0, 0,
        0] : List Nat).length < 42 ∧
    middlewareDecompress (New Gzip [WithLevel 9])
        [31, 139, 8, 0, 0, 0, 0, 0, 2, 255, 1, 14, 3, 72, 101, 108, 108,
          111, 44, 32, 119, 111, 114, 108, 100, 33, 32, 251, 13, 0, 0, 42,
          0, 0, 0] =
      .ok helloS :=
  ⟨rfl, rfl, by decide, rfl⟩

/-- C9: construction never fails for any input: `New` is a total function,
records whatever algorithm value it is given — including unrecognized ones
such as 999 — for every option list, and an unsupported algorithm is only
detected later, at the first `Writer` or `Reader` call. -/
theorem C9_construction (A : Int) (ls : List Int) (input : List Nat)
    (h0 : A ≠ Gzip) (h1 : A ≠ Zlib) :
    (New A (ls.map WithLevel)).algorithm = A ∧
    (New A (ls.map WithLevel)).Writer = .error .unsupportedAlgorithm ∧
    (New A (ls.map WithLevel)).Reader input = .error .unsupportedAlgorithm := by
  have halg := (New_map_withLevel A ls).1
  refine ⟨halg, ?_, ?_⟩
  · unfold Middleware.Writer
    rw [if_neg (fun h => h0 (halg.symm.trans h)),
      if_neg (fun h => h1 (halg.symm.trans h))]
  · unfold Middleware.Reader
    rw [if_neg (fun h => h0 (halg.symm.trans h)),
      if_neg (fun h => h1 (halg.symm.trans h))]

theorem C9_construction_witness :
    (New 999 ([3, 42].map WithLevel)).algorithm = 999 ∧
    (New 999 ([3, 42].map WithLevel)).Writer = .error .unsupportedAlgorithm ∧
    (New 999 ([3, 42].map WithLevel)).Reader [5] =
      .error .unsupportedAlgorithm :=
  C9_construction 999 [3, 42] [5] (by decide) (by decide)

/-- C10: for middleware built by `New` with a supported algorithm and any
`WithLevel` option list, the codec-initialization panic branch in `Writer`
is unreachable: the construction invariant keeps the level in [1,9], which
the codec writer factories always accept, so `Writer` returns an adapter. -/
theorem C10_no_panic (A : Int) (ls : List Int) (hA : A = Gzip ∨ A = Zlib) :
    (New A (ls.map WithLevel)).Writer =
      .ok (if A = Gzip then
        WAdapter.gz ⟨⟨(New A (ls.map WithLevel)).level, []⟩⟩
      else WAdapter.zl ⟨⟨(New A (ls.map WithLevel)).level, []⟩⟩) := by
  obtain ⟨halg, h1, h9⟩ := New_map_withLevel A ls
  unfold Middleware.Writer
  rcases hA with hA | hA
  · rw [if_pos (halg.trans hA), if_pos hA]
    unfold gzipNewWriterLevel
    rw [if_pos ⟨by omega, h9⟩]
  · have hne : (New A (ls.map WithLevel)).algorithm ≠ Gzip := by
      rw [halg, hA]; decide
    have hne' : A ≠ Gzip := by rw [hA]; decide
    rw [if_neg hne, if_pos (halg.trans hA), if_neg hne']
    unfold zlibNewWriterLevel
    rw [if_pos ⟨by omega, h9⟩]

theorem C10_no_panic_witness :
    (New 0 ([15].map WithLevel)).Writer =
      .ok (if (0 : Int) = Gzip then
        WAdapter.gz ⟨⟨(New 0 ([15].map WithLevel)).level, []⟩⟩
      else WAdapter.zl ⟨⟨(New 0 ([15].map WithLevel)).level, []⟩⟩) :=
  C10_no_panic 0 [15] (Or.inl rfl)

end CompressionStdlib
